import Mathlib

/-!
Verification of the MusicPainter repository (MusicPainter.py, PaintBrush.py).

The Python source is shallowly embedded: Python floats are modelled by the
rationals, Python ints by Int or Nat, Python lists by List, and while loops
by structurally recursive functions whose fuel argument is a proven upper
bound on the number of iterations.  Each definition cites the source
function it embeds.
-/

set_option autoImplicit false

namespace MusicPainter

/-! ### Zoom clamping (ObjectListViewer.wheelEvent and mouseMoveEvent,
MusicPainter.py lines 119-125 and 136-146)

Both handlers multiply the zoom factor and then run the same pair of
sequential `if` statements: if the result is below 1 it becomes 1, and then
if it is above 1000 it becomes 1000. -/

/-- Embeds the clamping sequence `if z < 1: z = 1` followed by
`if z > 1000: z = 1000` shared by both zoom updates. -/
def zoomClamp (z : ℚ) : ℚ :=
  let z1 := if z < 1 then 1 else z
  if z1 > 1000 then 1000 else z1

/-- Embeds `wheelEvent`: `self.zoomfactor *= (1 + e.delta() / 5000)` and then
the clamp (MusicPainter.py lines 120-124). -/
def wheelZoom (zoomfactor delta : ℚ) : ℚ :=
  zoomClamp (zoomfactor * (1 + delta / 5000))

/-- Embeds the control-modified drag branch of `mouseMoveEvent`:
`self.zoomfactor *= (1 + pixmove / 100)` and then the clamp
(MusicPainter.py lines 139-145). -/
def dragZoom (zoomfactor pixmove : ℚ) : ℚ :=
  zoomClamp (zoomfactor * (1 + pixmove / 100))

/-! ### RenderList (MusicPainter.py lines 333-352) -/

/-- Embeds `RenderList.get`: `if i < 0 or i >= len(self.renderlist): return
None` and otherwise `return self.renderlist[i]` (MusicPainter.py lines
349-352).  The render list is modelled by the underlying List and the Python
`None` by `Option.none`.  The function reads the list and never mutates it,
so the embedding is a pure function of the list. -/
def RenderList.get {α : Type} (renderlist : List α) (i : ℤ) : Option α :=
  if i < 0 ∨ (renderlist.length : ℤ) ≤ i then none
  else renderlist[i.toNat]?

/-! ### Hue ramp getRBG (PaintBrush.py lines 54-80)

The source initializes `RBG = [0, 0, 0]` and overwrites all three entries in
whichever of the six chained range tests fires; if none fires the initial
zeros are returned.  The chained elif tests are embedded as nested ifs. -/

/-- Embeds `PaintBrush.getRBG` (PaintBrush.py lines 54-80). -/
def getRBG (RBGVal : ℚ) : List ℚ :=
  if 0 ≤ RBGVal ∧ RBGVal ≤ 255 then [255, 0, RBGVal]
  else if 255 ≤ RBGVal ∧ RBGVal ≤ 510 then [255 - (RBGVal - 255), 0, 255]
  else if 510 ≤ RBGVal ∧ RBGVal ≤ 765 then [0, RBGVal - 510, 255]
  else if 765 ≤ RBGVal ∧ RBGVal ≤ 1020 then [0, 255, 255 - (RBGVal - 765)]
  else if 1020 ≤ RBGVal ∧ RBGVal ≤ 1275 then [RBGVal - 1020, 255, 0]
  else if 1275 ≤ RBGVal ∧ RBGVal ≤ 1530 then [255, 255 - (RBGVal - 1275), 0]
  else [0, 0, 0]

/-! ### Dominant frequency (MusicPainter.getMaxFreq, MusicPainter.py lines
929-943)

The source checks both arrays for emptiness, initializes `maxfreq = freq[0]`
and `maxspec = spec[0]`, then loops `j` over `range(len(spec))`, updating
both maxima when `spec[j] > maxspec`.  The loop is embedded structurally by
consuming the spectrum list while carrying the index `j`; the read `freq[j]`
is modelled by `List.getD` (Python raises IndexError when `j` is past the
end of `freq`, which cannot happen at the call sites since `np.fft.rfft` and
`np.fft.rfftfreq` produce arrays of equal length). -/

/-- Loop body of getMaxFreq: the remaining spectrum entries are
`spect[j], spect[j+1], ...` and `maxspec`, `maxfreq` are the running
maximum magnitude and its frequency. -/
def getMaxFreqGo (freq : List ℚ) : List ℚ → Nat → ℚ → ℚ → ℚ
  | [], _, _, maxfreq => maxfreq
  | s :: rest, j, maxspec, maxfreq =>
    if maxspec < s then getMaxFreqGo freq rest (j + 1) s (freq.getD j 0)
    else getMaxFreqGo freq rest (j + 1) maxspec maxfreq

/-- Embeds `MusicPainter.getMaxFreq` (MusicPainter.py lines 929-943). -/
def getMaxFreq (spect freq : List ℚ) : ℚ :=
  if spect.length = 0 ∨ freq.length = 0 then 0
  else getMaxFreqGo freq spect 0 (spect.getD 0 0) (freq.getD 0 0)

/-! ### Per-frame spectral analysis (dotheplay lines 1003-1022 and
dotherecord lines 1144-1161 of MusicPainter.py)

A frame hands the analyzer one `(spect, freq)` pair per channel, the result
of `getSpectrum` (a NumPy real FFT, treated as the data of the frame).  The
analysis computes per-channel dominant frequencies, the maximum over the
channels, the `CorSpect` value, and applies the 8500 Hz frequency cap. -/

/-- One channel of a frame: the magnitude spectrum and frequency array
returned by `getSpectrum` for the chunk of that channel. -/
structure ChannelData where
  spect : List ℚ
  freq : List ℚ
deriving DecidableEq

/-- Python max over a nonempty list, as used in `max(channelFreqs)`
(MusicPainter.py lines 1012 and 1153).  Python raises on an empty list;
both callers have at least one channel, and the empty case is given the
junk value 0. -/
def listMax : List ℚ → ℚ
  | [] => 0
  | a :: t => t.foldl max a

/-- The per-channel dominant frequencies `channelFreqs` (MusicPainter.py
lines 1007-1010). -/
def domFreqs (chans : List ChannelData) : List ℚ :=
  chans.map fun c => getMaxFreq c.spect c.freq

/-- Embeds the `CorSpect` search loop (MusicPainter.py lines 1014-1016 and
1155-1157): `CorSpect` starts at 0, and for each index i with
`channelFreqs[i] == maxfreqch` it is overwritten with `spect[i]`, where
`spect` is whatever the spectrum variable holds after the channel loop,
namely the spectrum of the LAST channel.  The index i is a channel index, so the
read `spect[i]` is modelled by `List.getD` (Python would raise only if the
channel count exceeded the spectrum length, impossible for the chunk sizes
in use). -/
def corSpectLoop (channelFreqs : List ℚ) (maxfreqch : ℚ) (spect : List ℚ) : ℚ :=
  (List.range channelFreqs.length).foldl
    (fun acc i => if channelFreqs.getD i 0 = maxfreqch then spect.getD i 0 else acc) 0

/-- The frequency cap `freqcap = 8500` (MusicPainter.py lines 1000 and
1138). -/
def freqcap : ℚ := 8500

/-- Embeds one iteration of the precomputation loop of `dotheplay`
(MusicPainter.py lines 1003-1022): returns the pair appended to
`self.freqList` and `self.SpectList` for this frame. -/
def analyzeFramePlay (chans : List ChannelData) : List ℚ × ℚ :=
  let channelFreqs := domFreqs chans
  let maxfreqch := listMax channelFreqs
  let lastSpect := match chans.getLast? with
    | some c => c.spect
    | none => []
  let CorSpect := corSpectLoop channelFreqs maxfreqch lastSpect
  (if maxfreqch > freqcap then [0, 0] else channelFreqs, CorSpect)

/-- Embeds one iteration of the capture loop of `dotherecord`
(MusicPainter.py lines 1144-1161) with `RECORDCHANNELS = 1`: the single
spectrum and frequency arrays of the single channel produce `channelFreqs = [maxfreq]`,
and the same cap is applied before the frame is appended to
`self.freqlist`. -/
def analyzeFrameRecord (spect freq : List ℚ) : List ℚ × ℚ :=
  let channelFreqs := [getMaxFreq spect freq]
  let maxfreqch := listMax channelFreqs
  let CorSpect := corSpectLoop channelFreqs maxfreqch spect
  (if maxfreqch > freqcap then [0, 0] else channelFreqs, CorSpect)

/-- The per-frame entries of `self.freqList` over a whole playback run:
frame i stores `(analyzeFramePlay (frames i)).1`. -/
def freqListPlay (frames : List (List ChannelData)) : List (List ℚ) :=
  frames.map fun chans => (analyzeFramePlay chans).1

/-- Follows the claim and section 4.1 of the spec, not the source: the
spectral weight of a frame is the spectral magnitude at the dominant frequency
of the channel whose dominant frequency is the largest, i.e. the maximum
magnitude of the spectrum of the channel achieving `max(channelFreqs)`.
Used only to compare the source computation against the stated one. -/
def specSpectralWeight (chans : List ChannelData) : ℚ :=
  let channelFreqs := domFreqs chans
  let maxfreqch := listMax channelFreqs
  match chans.find? (fun c => getMaxFreq c.spect c.freq = maxfreqch) with
  | some c => listMax c.spect
  | none => 0

/-! ### Chunk slicing (dotheplay, MusicPainter.py lines 966-974)

The source runs, per channel, `start = 0; while start + chunk <= samples:
soundslices.append(channelData[i][start:start+chunk]); start += chunk`.
Taking the slice `[start:start+chunk]` and advancing `start` is the same as
taking the first `chunk` elements and recursing on the rest, and the guard
`start + chunk <= samples` is `chunk <= remaining length`.  The loop is
embedded with a fuel argument equal to the channel length, an upper bound
on the iteration count since every iteration consumes chunk >= 1 samples;
for chunk = 0 the source loop would not terminate, and every chunk size the
program offers is at least 1024, so the guard also requires 0 < chunk. -/

/-- Fuel-indexed slicing loop. -/
def sliceGo (chunk : Nat) : Nat → List ℤ → List (List ℤ)
  | 0, _ => []
  | fuel + 1, chan =>
    if 0 < chunk ∧ chunk ≤ chan.length then
      chan.take chunk :: sliceGo chunk fuel (chan.drop chunk)
    else []

/-- Embeds the slicing while-loop of `dotheplay` for one channel
(MusicPainter.py lines 969-973). -/
def soundslices (chan : List ℤ) (chunk : Nat) : List (List ℤ) :=
  sliceGo chunk chan.length chan

/-- Embeds the `channelChunks` construction (MusicPainter.py lines
966-974): every channel is sliced with the same chunk size. -/
def channelChunks (chans : List (List ℤ)) (chunk : Nat) : List (List (List ℤ)) :=
  chans.map fun c => soundslices c chunk

/-- The analysis loop of `dotheplay` runs
`for i in range(len(channelChunks[0]))` (MusicPainter.py line 1003), so the
number of analyzed frames is the slice count of the first channel. -/
def numAnalyzedFrames (chans : List (List ℤ)) (chunk : Nat) : Nat :=
  ((channelChunks chans chunk).headD []).length

/-- The chunk-size domain offered by the UI (MusicPainter.py line 605). -/
def ChunkSizesList : List Nat := [1024, 2048, 4096, 8192, 16384, 32768, 65536, 131072]

/-! ### Algorithm 13 (PaintBrush.algorithm13, PaintBrush.py lines 641-744,
and its reset SetAlg13, lines 50-52)

State: RLData[0] is the quadrant cursor, RLData[1..4] the current quadrant
rectangle corners, and avgList the accumulation buffer.  The render list
output of a call is returned explicitly. -/

/-- RGBA color as set by QColor.setRgbF (component values in [0, 1]). -/
structure RGBA where
  r : ℚ
  g : ℚ
  b : ℚ
  a : ℚ
deriving DecidableEq

/-- The only primitive algorithm13 emits: `makeRectangle(x1, y1, x2, y2,
fill, col)` (PaintBrush.py lines 125-127, tag 3). -/
structure RectObj where
  x1 : ℚ
  y1 : ℚ
  x2 : ℚ
  y2 : ℚ
  fill : Bool
  col : RGBA
deriving DecidableEq

/-- Mutable state of algorithm 13: the five RLData slots and avgList. -/
structure Alg13State where
  rl0 : ℚ
  rl1 : ℚ
  rl2 : ℚ
  rl3 : ℚ
  rl4 : ℚ
  avgList : List ℚ
deriving DecidableEq

/-- Embeds `SetAlg13` (PaintBrush.py lines 50-52): RLData = [0,0,0,0,0]
and an empty avgList. -/
def alg13Reset : Alg13State := ⟨0, 0, 0, 0, 0, []⟩

/-- Embeds the running-total loop of algorithm13 (PaintBrush.py lines
718-722): `for i in self.avgList: totalAvg += self.avgList.pop(count);
count += 1`.  Python fetches element number n of the CURRENT list on
iteration n and stops when n reaches the current length; the body pops the
element at index count = n, so each iteration removes the element just
fetched and the iterator then skips over the element that slid into its
place.  The fuel argument, the initial list length, bounds the iteration
count since the list shrinks by one element per iteration. -/
def popLoopGo : Nat → List ℚ → Nat → ℚ → ℚ × Nat
  | 0, _, count, total => (total, count)
  | fuel + 1, l, count, total =>
    if count < l.length then
      popLoopGo fuel (l.eraseIdx count) (count + 1) (total + l.getD count 0)
    else (total, count)

/-- Runs the running-total loop from the initial state totalAvg = 0,
count = 0 and returns the final (totalAvg, count). -/
def popLoop (l : List ℚ) : ℚ × Nat := popLoopGo l.length l 0 0

/-- The five-band color table of algorithm13 (PaintBrush.py lines
727-736). -/
def thresholdColor (totalAvg : ℚ) : RGBA :=
  if totalAvg < 50 then ⟨0, 0, 0, 1⟩
  else if totalAvg < 210 then ⟨1/10, 1/10, 1, 1⟩
  else if totalAvg < 550 then ⟨1/2, 4/5, 7/10, 1⟩
  else if totalAvg < 2000 then ⟨1, 0, 0, 1⟩
  else ⟨0, 1, 0, 1⟩

/-- The quadrant corner table of algorithm13 (PaintBrush.py lines 650-711):
the elif chain on RLData[0] overwrites RLData[1..4]; values outside 0..8
leave the old corners (no branch fires). -/
def quadCorners (q : ℚ) (old1 old2 old3 old4 : ℚ) : ℚ × ℚ × ℚ × ℚ :=
  if q = 0 then (-1, 1, -33/100, 33/100)
  else if q = 1 then (-33/100, 33/100, 33/100, 1)
  else if q = 2 then (33/100, 1, 1, 33/100)
  else if q = 3 then (-1, 33/100, -33/100, -33/100)
  else if q = 4 then (-33/100, 33/100, 33/100, -33/100)
  else if q = 5 then (33/100, 33/100, 1, -33/100)
  else if q = 6 then (-1, -33/100, -33/100, -1)
  else if q = 7 then (-33/100, -1, 33/100, -33/100)
  else if q = 8 then (33/100, -33/100, 1, -1)
  else (old1, old2, old3, old4)

/-- Embeds one call of `algorithm13(data, active)` (PaintBrush.py lines
641-744): the per-frame channel average is appended to avgList; on an
active (boundary) frame nothing else happens; on a non-boundary frame the
quadrant corners are selected by the cursor, the cursor advances cyclically
0..8, the running-total loop consumes the buffer, the buffer is cleared,
and one filled rectangle with the threshold color is appended to the render
list.  The reads `data[0]` and `data[1]` are modelled by `List.getD`
(every caller passes at least one channel). -/
def algorithm13 (s : Alg13State) (data : List ℚ) (active : Bool) :
    Alg13State × List RectObj :=
  let avg := if 1 < data.length then (data.getD 0 0 + data.getD 1 0) / 2 else data.getD 0 0
  let al := s.avgList ++ [avg]
  if active then ({ s with avgList := al }, [])
  else
    let c := quadCorners s.rl0 s.rl1 s.rl2 s.rl3 s.rl4
    let q2 := if s.rl0 < 8 then s.rl0 + 1 else 0
    let tc := popLoop al
    let totalAvg := tc.1 / (tc.2 : ℚ)
    let col := thresholdColor totalAvg
    (⟨q2, c.1, c.2.1, c.2.2.1, c.2.2.2, []⟩,
      [⟨c.1, c.2.1, c.2.2.1, c.2.2.2, true, col⟩])

/-- Runs algorithm 13 over a sequence of (data, boundary-flag) calls,
concatenating the emitted render-list objects. -/
def runAlg13 : Alg13State → List (List ℚ × Bool) → Alg13State × List RectObj
  | s, [] => (s, [])
  | s, (d, a) :: rest =>
    let step := algorithm13 s d a
    let r := runAlg13 step.1 rest
    (r.1, step.2 ++ r.2)

/-! ### Incremental redraw (ObjectListViewer.paintEvent, MusicPainter.py
lines 299-331)

The attributes of the viewer relevant to the redraw path are
`lastRenderListSize` (assigned 0 in the constructor, line 71, and the
render-list length at the end of every paint, line 331) and `renderAll`.
Line 311 of the incremental branch reads `self.lastRendetListSize` — note
the misspelling — and no statement in the program ever assigns that name,
so the read raises AttributeError. -/

/-- Viewer state for the redraw path. -/
structure ViewerState where
  lastRenderListSize : Nat
  renderAll : Bool
deriving DecidableEq

/-- Outcome of a paint: either the background-clear flag, the list of
render-list indices drawn in order, and the recorded new last size; or the
AttributeError raised on line 311. -/
inductive PaintOutcome where
  | drawn (cleared : Bool) (indices : List Nat) (newLast : Nat)
  | attributeError
deriving DecidableEq

/-- Models the read of `self.lastRendetListSize` on MusicPainter.py line
311: the attribute is never assigned anywhere in the program (the
constructor and line 331 assign `lastRenderListSize`), so the lookup fails;
none stands for the AttributeError. -/
def lastRendetListSize (_s : ViewerState) : Option Nat := none

/-- Embeds `paintEvent` (MusicPainter.py lines 299-331) restricted to its
redraw logic: with renderAll the background is cleared and objects
0..length-1 are drawn; otherwise renderstart is read from the misspelled
attribute, and on success objects renderstart..length-1 would be drawn
without clearing; afterwards the render-list length is recorded.  rlLen is
the current length of the shared render list. -/
def paintEvent (s : ViewerState) (rlLen : Nat) : PaintOutcome :=
  if s.renderAll then
    PaintOutcome.drawn true (List.range' 0 (rlLen - 0)) rlLen
  else
    match lastRendetListSize s with
    | none => PaintOutcome.attributeError
    | some renderstart => PaintOutcome.drawn false (List.range' renderstart (rlLen - renderstart)) rlLen

/-! ### Viewport coordinate transform (ObjectListViewer.updateScreenBounds
and XYtoQPoint, MusicPainter.py lines 155-178) -/

/-- Viewport state: pan center, zoom factor, widget width and height. -/
structure Viewport where
  centerX : ℚ
  centerY : ℚ
  zoom : ℚ
  width : ℚ
  height : ℚ

/-- Entry 1 of `fullscreen` after the aspect-ratio branch and the 1/zoom
scaling in `updateScreenBounds` (MusicPainter.py lines 166-174). -/
def fullscreen1 (v : Viewport) : ℚ :=
  (if v.height ≤ v.width then v.width / v.height else 1) * (1 / v.zoom)

/-- Entry 3 of `fullscreen` after the aspect-ratio branch and the 1/zoom
scaling in `updateScreenBounds` (MusicPainter.py lines 166-174). -/
def fullscreen3 (v : Viewport) : ℚ :=
  (if v.height ≤ v.width then 1 else v.height / v.width) * (1 / v.zoom)

/-- Screen bound `self.screen[0]` set by `updateScreenBounds`
(MusicPainter.py line 175). -/
def screenX0 (v : Viewport) : ℚ := v.centerX - fullscreen1 v

/-- Screen bound `self.screen[1]` set by `updateScreenBounds`
(MusicPainter.py line 176). -/
def screenX1 (v : Viewport) : ℚ := v.centerX + fullscreen1 v

/-- Screen bound `self.screen[2]` set by `updateScreenBounds`
(MusicPainter.py line 177). -/
def screenY0 (v : Viewport) : ℚ := v.centerY - fullscreen3 v

/-- Screen bound `self.screen[3]` set by `updateScreenBounds`
(MusicPainter.py line 178). -/
def screenY1 (v : Viewport) : ℚ := v.centerY + fullscreen3 v

/-- Embeds `XYtoQPoint` (MusicPainter.py lines 155-162): the real-valued
mapping equations ptx = (x + center_x)/xr * width + width/2 and
pty = (center_y - y)/yr * height + height/2, with xr = screen[1]-screen[0]
and yr = screen[3]-screen[2].  The final conversion to an integer QPoint is
display quantization and is not part of the mapping equations. -/
def XYtoQPoint (v : Viewport) (x y : ℚ) : ℚ × ℚ :=
  ((x + v.centerX) / (screenX1 v - screenX0 v) * v.width + v.width / 2,
   (v.centerY - y) / (screenY1 v - screenY0 v) * v.height + v.height / 2)

/-- The inverse mapping obtained by solving the XYtoQPoint equations for
the object-space coordinates, as the claim states it. -/
def QPointToXY (v : Viewport) (pt : ℚ × ℚ) : ℚ × ℚ :=
  ((pt.1 - v.width / 2) * (screenX1 v - screenX0 v) / v.width - v.centerX,
   v.centerY - (pt.2 - v.height / 2) * (screenY1 v - screenY0 v) / v.height)

end MusicPainter

namespace MusicPainter

/-- C8: after the wheel-event zoom update and the control-modified drag zoom
update, the zoom factor always lies in the interval [1, 1000]; in particular
the invariant 1 ≤ zoomfactor ≤ 1000 is preserved from any starting zoom
factor in [1, 1000] and any input delta. -/
theorem c8_zoom_invariant (zoomfactor delta pixmove : ℚ) :
    1 ≤ wheelZoom zoomfactor delta ∧ wheelZoom zoomfactor delta ≤ 1000 ∧
    1 ≤ dragZoom zoomfactor pixmove ∧ dragZoom zoomfactor pixmove ≤ 1000 := by
  unfold wheelZoom dragZoom zoomClamp
  refine ⟨?_, ?_, ?_, ?_⟩ <;> dsimp only <;> split_ifs <;> linarith

/-- C9: RenderList.get returns the element at index i whenever
0 ≤ i < length, and returns none for every index outside that range.  The
embedding is a pure function of the list, so the list is left unchanged. -/
theorem c9_renderlist_get (α : Type) (l : List α) (i : ℤ) :
    (∀ _h0 : 0 ≤ i, ∀ hl : i.toNat < l.length,
      RenderList.get l i = some (l.get ⟨i.toNat, hl⟩)) ∧
    ((i < 0 ∨ (l.length : ℤ) ≤ i) → RenderList.get l i = none) := by
  constructor
  · intro h0 hl
    have hi : ¬ (i < 0 ∨ (l.length : ℤ) ≤ i) := by
      push_neg
      refine ⟨by omega, ?_⟩
      omega
    simp [RenderList.get, hi, List.getElem?_eq_getElem hl]
  · intro h
    simp [RenderList.get, h]

/-- Witness for C9 at concrete inputs: index 1 of [10, 20, 30] is in range
and yields 20, while index 5 is out of range and yields none. -/
theorem c9_renderlist_get_witness :
    RenderList.get [(10 : ℤ), 20, 30] (1 : ℤ) = some 20 ∧
    RenderList.get [(10 : ℤ), 20, 30] (5 : ℤ) = none := by
  constructor
  · have h := (c9_renderlist_get ℤ [10, 20, 30] 1).1 (by decide) (by decide)
    simpa using h
  · exact (c9_renderlist_get ℤ [10, 20, 30] 5).2 (by decide)

/-- C10: getRBG is total; every input in [0, 1530] yields three components
each in [0, 255], and every input outside [0, 1530] yields [0, 0, 0]. -/
theorem c10_getRBG_total (v : ℚ) :
    (0 ≤ v → v ≤ 1530 → ∀ c ∈ getRBG v, 0 ≤ c ∧ c ≤ 255) ∧
    (v < 0 ∨ 1530 < v → getRBG v = [0, 0, 0]) := by
  constructor
  · intro h0 h1 c hc
    unfold getRBG at hc
    split_ifs at hc with h2 h3 h4 h5 h6 h7 <;>
      simp only [List.mem_cons, List.mem_singleton, List.not_mem_nil, or_false] at hc <;>
      rcases hc with rfl | rfl | rfl <;>
      constructor <;> first
        | linarith [h2.1, h2.2]
        | linarith [h3.1, h3.2]
        | linarith [h4.1, h4.2]
        | linarith [h5.1, h5.2]
        | linarith [h6.1, h6.2]
        | linarith [h7.1, h7.2]
        | linarith
  · intro h
    unfold getRBG
    rcases h with h | h <;> split_ifs with h2 h3 h4 h5 h6 h7 <;>
      first
        | rfl
        | (exfalso; first
            | linarith [h2.1, h2.2]
            | linarith [h3.1, h3.2]
            | linarith [h4.1, h4.2]
            | linarith [h5.1, h5.2]
            | linarith [h6.1, h6.2]
            | linarith [h7.1, h7.2])

/-- Witness for C10 at concrete inputs: 300 lies in the second band and
yields [210, 0, 255] with components in range, and 2000 is out of range
and yields [0, 0, 0]. -/
theorem c10_getRBG_total_witness :
    (∀ c ∈ getRBG 300, 0 ≤ c ∧ c ≤ 255) ∧ getRBG 2000 = [0, 0, 0] :=
  ⟨(c10_getRBG_total 300).1 (by norm_num) (by norm_num),
   (c10_getRBG_total 2000).2 (by norm_num)⟩

/-- Loop invariant for the getMaxFreq scan: if the state on entering the
iteration at index j is the maximum of the prefix spect[0..j) together with
the frequency at the first index attaining it, then the final result is the
frequency at the first index attaining the maximum of the whole spectrum.
The remaining entries are passed as tail, with tail[m] = spect[j + m]. -/
theorem getMaxFreqGo_spec (spect freq : List ℚ) :
    ∀ (tail : List ℚ) (j i0 : Nat),
      tail.length + j = spect.length →
      (∀ m, m < tail.length → tail.getD m 0 = spect.getD (j + m) 0) →
      i0 < j → i0 < spect.length →
      (∀ k, k < j → k < spect.length → spect.getD k 0 ≤ spect.getD i0 0) →
      (∀ k, k < i0 → spect.getD k 0 < spect.getD i0 0) →
      ∃ i1, i1 < spect.length ∧
        getMaxFreqGo freq tail j (spect.getD i0 0) (freq.getD i0 0) = freq.getD i1 0 ∧
        (∀ k, k < spect.length → spect.getD k 0 ≤ spect.getD i1 0) ∧
        (∀ k, k < i1 → spect.getD k 0 < spect.getD i1 0) := by
  intro tail
  induction tail with
  | nil =>
    intro j i0 hlen hidx hij hi0 hmax hfirst
    refine ⟨i0, hi0, rfl, ?_, hfirst⟩
    intro k hk
    refine hmax k ?_ hk
    simp only [List.length_nil, Nat.zero_add] at hlen
    omega
  | cons s rest ih =>
    intro j i0 hlen hidx hij hi0 hmax hfirst
    have hjlen : j < spect.length := by
      simp only [List.length_cons] at hlen
      omega
    have hs : s = spect.getD j 0 := by
      have h0 := hidx 0 (by simp)
      simpa using h0
    have hlen2 : rest.length + (j + 1) = spect.length := by
      simp only [List.length_cons] at hlen
      omega
    have hidx2 : ∀ m, m < rest.length → rest.getD m 0 = spect.getD (j + 1 + m) 0 := by
      intro m hm
      have h1 := hidx (m + 1) (by simp; omega)
      simp only [List.getD_cons_succ] at h1
      rw [h1]
      ring_nf
    rw [getMaxFreqGo]
    split_ifs with hlt
    · rw [hs] at hlt
      rw [hs]
      refine ih (j + 1) j hlen2 hidx2 (Nat.lt_succ_self j) hjlen ?_ ?_
      · intro k hk hk2
        rcases Nat.lt_succ_iff_lt_or_eq.mp hk with h | h
        · exact le_of_lt (lt_of_le_of_lt (hmax k h hk2) hlt)
        · subst h
          exact le_refl _
      · intro k hk
        exact lt_of_le_of_lt (hmax k hk (Nat.lt_trans hk hjlen)) hlt
    · rw [hs] at hlt
      have hle : spect.getD j 0 ≤ spect.getD i0 0 := not_lt.mp hlt
      refine ih (j + 1) i0 hlen2 hidx2 (Nat.lt_succ_of_lt hij) hi0 ?_ hfirst
      intro k hk hk2
      rcases Nat.lt_succ_iff_lt_or_eq.mp hk with h | h
      · exact hmax k h hk2
      · subst h
        exact hle

/-- C4: getMaxFreq returns 0 when either array is empty, and otherwise
(for a well-formed pair, the frequency array covering every spectrum bin,
as the FFT always produces) returns the frequency at the first bin of
maximum spectral magnitude. -/
theorem c4_getMaxFreq (spect freq : List ℚ) :
    ((spect = [] ∨ freq = []) → getMaxFreq spect freq = 0) ∧
    (spect ≠ [] → spect.length ≤ freq.length →
      ∃ i, i < spect.length ∧ getMaxFreq spect freq = freq.getD i 0 ∧
        (∀ k, k < spect.length → spect.getD k 0 ≤ spect.getD i 0) ∧
        (∀ k, k < i → spect.getD k 0 < spect.getD i 0)) := by
  constructor
  · rintro (rfl | rfl) <;> simp [getMaxFreq]
  · intro hne hlen
    obtain ⟨s0, t, rfl⟩ := List.exists_cons_of_ne_nil hne
    have hfne : ¬((s0 :: t).length = 0 ∨ freq.length = 0) := by
      simp only [List.length_cons] at hlen ⊢
      omega
    rw [getMaxFreq, if_neg hfne]
    have step1 : getMaxFreqGo freq (s0 :: t) 0 ((s0 :: t).getD 0 0) (freq.getD 0 0)
        = getMaxFreqGo freq t 1 ((s0 :: t).getD 0 0) (freq.getD 0 0) := by
      simp [getMaxFreqGo]
    rw [step1]
    refine getMaxFreqGo_spec (s0 :: t) freq t 1 0 (by simp) ?_ Nat.one_pos (by simp) ?_ ?_
    · intro m hm
      simp [Nat.add_comm 1 m]
    · intro k hk hk2
      have : k = 0 := by omega
      subst this
      exact le_refl _
    · intro k hk
      exact absurd hk (Nat.not_lt_zero k)

/-- Witness for C4 at a concrete input: for spectrum [1, 3, 3, 2] and
frequencies [10, 20, 30, 40] the returned dominant frequency is 20, the
frequency at the first of the two bins sharing the maximum magnitude 3. -/
theorem c4_getMaxFreq_witness :
    (∃ i, i < ([(1 : ℚ), 3, 3, 2]).length ∧
      getMaxFreq [1, 3, 3, 2] [10, 20, 30, 40] = ([(10 : ℚ), 20, 30, 40]).getD i 0 ∧
      (∀ k, k < ([(1 : ℚ), 3, 3, 2]).length →
        ([(1 : ℚ), 3, 3, 2]).getD k 0 ≤ ([(1 : ℚ), 3, 3, 2]).getD i 0) ∧
      (∀ k, k < i → ([(1 : ℚ), 3, 3, 2]).getD k 0 < ([(1 : ℚ), 3, 3, 2]).getD i 0)) ∧
    getMaxFreq [1, 3, 3, 2] [10, 20, 30, 40] = 20 :=
  ⟨(c4_getMaxFreq [1, 3, 3, 2] [10, 20, 30, 40]).2 (by decide) (by decide), by decide⟩

/-- C1: in both the file-playback analysis (dotheplay) and the live-capture
analysis (dotherecord), whenever the maximum per-channel dominant frequency
of a frame exceeds 8500 Hz, the per-channel frequency list stored for that
frame is the neutral value [0, 0]. -/
theorem c1_frequency_cap :
    (∀ chans : List ChannelData, (8500 : ℚ) < listMax (domFreqs chans) →
      (analyzeFramePlay chans).1 = [0, 0]) ∧
    (∀ frames : List (List ChannelData), ∀ i : Nat, i < frames.length →
      (8500 : ℚ) < listMax (domFreqs (frames.getD i [])) →
      (freqListPlay frames).getD i [] = [0, 0]) ∧
    (∀ spect freq : List ℚ, (8500 : ℚ) < getMaxFreq spect freq →
      (analyzeFrameRecord spect freq).1 = [0, 0]) := by
  refine ⟨?_, ?_, ?_⟩
  · intro chans h
    simp only [analyzeFramePlay, freqcap]
    rw [if_pos h]
  · intro frames i hi h
    have hmap : (freqListPlay frames).getD i [] = (analyzeFramePlay (frames.getD i [])).1 := by
      simp only [freqListPlay]
      rw [List.getD_eq_getElem?_getD, List.getElem?_map,
        List.getElem?_eq_getElem hi, List.getD_eq_getElem?_getD,
        List.getElem?_eq_getElem hi]
      rfl
    rw [hmap]
    simp only [analyzeFramePlay, freqcap]
    rw [if_pos h]
  · intro spect freq h
    have hm : listMax [getMaxFreq spect freq] = getMaxFreq spect freq := rfl
    simp only [analyzeFrameRecord, freqcap, hm]
    rw [if_pos h]

/-- Witness for C1 at a concrete frame: a single channel whose dominant
frequency is 9000 Hz exceeds the cap, so the stored list is [0, 0] in both
pipelines, and entry 0 of the playback frequency list is [0, 0]. -/
theorem c1_frequency_cap_witness :
    (analyzeFramePlay [⟨[1], [9000]⟩]).1 = [0, 0] ∧
    (freqListPlay [[⟨[1], [9000]⟩]]).getD 0 [] = [0, 0] ∧
    (analyzeFrameRecord [1] [9000]).1 = [0, 0] := by
  obtain ⟨h1, h2, h3⟩ := c1_frequency_cap
  exact ⟨h1 [⟨[1], [9000]⟩] (by decide), h2 [[⟨[1], [9000]⟩]] 0 (by decide) (by decide),
    h3 [1] [9000] (by decide)⟩

/-- C2 fails on the code: for the two-channel frame below, channel 0 has the
largest dominant frequency (10, with spectral magnitude 5 at its dominant
bin), but the recorded CorSpect is 4, because the source reads
`spect[i]` where `spect` is the spectrum of the last channel and `i` is a
channel index rather than a frequency-bin index (MusicPainter.py lines
1014-1016, contradicting the comment directly above them). -/
theorem c2_spectral_weight_bug :
    (analyzeFramePlay [⟨[1, 5], [0, 10]⟩, ⟨[4, 1], [0, 10]⟩]).2 = 4 ∧
    specSpectralWeight [⟨[1, 5], [0, 10]⟩, ⟨[4, 1], [0, 10]⟩] = 5 ∧
    (4 : ℚ) ≠ 5 := by
  refine ⟨by decide, by decide, by norm_num⟩

/-- The slicing loop produces exactly length / chunk slices whenever the
fuel is at least the channel length and the chunk size is positive. -/
theorem sliceGo_length (chunk : Nat) (hc : 0 < chunk) :
    ∀ (fuel : Nat) (chan : List ℤ), chan.length ≤ fuel →
      (sliceGo chunk fuel chan).length = chan.length / chunk := by
  intro fuel
  induction fuel with
  | zero =>
    intro chan h
    have h0 : chan.length = 0 := Nat.le_zero.mp h
    rw [sliceGo, h0, Nat.zero_div]
    rfl
  | succ n ih =>
    intro chan h
    rw [sliceGo]
    split_ifs with hcond
    · have hle : (chan.drop chunk).length ≤ n := by
        rw [List.length_drop]
        omega
      rw [List.length_cons, ih (chan.drop chunk) hle, List.length_drop,
        Nat.div_eq_sub_div hc hcond.2]
    · have hlt : chan.length < chunk := by
        rcases Decidable.not_and_iff_or_not.mp hcond with h1 | h2
        · omega
        · omega
      rw [Nat.div_eq_of_lt hlt]
      rfl

/-- C3: for every chunk size in the valid domain and every sample count,
every channel is sliced into exactly samples / chunk chunks, and the number
of analyzed frames of the playback loop equals samples / chunk. -/
theorem c3_chunk_count (chunk samples : Nat) (chans : List (List ℤ))
    (hc : chunk ∈ ChunkSizesList)
    (hlen : ∀ c ∈ chans, c.length = samples) :
    (∀ sl ∈ channelChunks chans chunk, sl.length = samples / chunk) ∧
    (chans ≠ [] → numAnalyzedFrames chans chunk = samples / chunk) := by
  have hpos : 0 < chunk := by
    simp only [ChunkSizesList, List.mem_cons, List.not_mem_nil, or_false] at hc
    omega
  constructor
  · intro sl hsl
    simp only [channelChunks, List.mem_map] at hsl
    obtain ⟨c, hcmem, rfl⟩ := hsl
    rw [soundslices, sliceGo_length chunk hpos c.length c le_rfl, hlen c hcmem]
  · intro hne
    obtain ⟨c0, rest, rfl⟩ := List.exists_cons_of_ne_nil hne
    simp only [numAnalyzedFrames, channelChunks, List.map_cons, List.headD_cons]
    rw [soundslices, sliceGo_length chunk hpos c0.length c0 le_rfl,
      hlen c0 (by simp)]

/-- Witness for C3 at concrete inputs: chunk size 1024 on a one-channel,
one-sample file gives 1 / 1024 = 0 frames, and independently a 1030-sample
channel yields exactly one frame. -/
theorem c3_chunk_count_witness :
    ((∀ sl ∈ channelChunks [[(0 : ℤ)]] 1024, sl.length = 1 / 1024) ∧
      ([[(0 : ℤ)]] ≠ [] → numAnalyzedFrames [[(0 : ℤ)]] 1024 = 1 / 1024)) ∧
    numAnalyzedFrames [List.replicate 1030 (0 : ℤ)] 1024 = 1 := by
  constructor
  · exact c3_chunk_count 1024 1 [[0]] (by decide) (by decide)
  · have h := (c3_chunk_count 1024 1030 [List.replicate 1030 (0 : ℤ)]
      (by decide)
      (by
        intro c hc
        rw [List.mem_singleton] at hc
        subst hc
        exact List.length_replicate 1030 0)).2 (List.cons_ne_nil _ _)
    rw [h]

/-- C5 fails on the code in its color clause: starting from the SetAlg13
reset state, ten calls with boundary flag true on the first nine and false
on the tenth append exactly one filled rectangle covering quadrant slot 0,
but its color is chosen by thresholding the mean of only the 1st, 3rd, 5th,
7th and 9th accumulated averages: the running-total loop pops the list it
is iterating over (PaintBrush.py lines 720-722), so the iterator skips
every other element.  Below, the accumulated averages are
0,400,0,400,...,400: the code picks the band of 0 (black), while the
running mean of all ten averages is 200, whose band is the blue
(.1,.1,1). -/
theorem c5_alg13_color_bug :
    (runAlg13 alg13Reset
      [([0], true), ([400], true), ([0], true), ([400], true), ([0], true),
       ([400], true), ([0], true), ([400], true), ([0], true), ([400], false)]).2
      = [⟨-1, 1, -33/100, 33/100, true, ⟨0, 0, 0, 1⟩⟩] ∧
    thresholdColor ((0 + 400 + 0 + 400 + 0 + 400 + 0 + 400 + 0 + 400) / 10)
      = ⟨1/10, 1/10, 1, 1⟩ ∧
    (⟨0, 0, 0, 1⟩ : RGBA) ≠ ⟨1/10, 1/10, 1, 1⟩ := by
  refine ⟨?_, ?_, ?_⟩
  · norm_num [runAlg13, algorithm13, alg13Reset, quadCorners, popLoop,
      popLoopGo, thresholdColor]
  · norm_num [thresholdColor]
  · simp only [ne_eq, RGBA.mk.injEq, not_and]
    intro h
    norm_num at h

/-- C6 fails on the code: a paint request with renderAll false reads the
never-assigned attribute `lastRendetListSize` (MusicPainter.py line 311, a
misspelling of `lastRenderListSize`) and raises AttributeError instead of
drawing the objects from the last recorded length 3 up to the current
length 7 without clearing. -/
theorem c6_incremental_redraw_bug :
    paintEvent ⟨3, false⟩ 7 = PaintOutcome.attributeError ∧
    paintEvent ⟨3, false⟩ 7 ≠ PaintOutcome.drawn false [3, 4, 5, 6] 7 := by
  refine ⟨rfl, by decide⟩

/-- C7: for every viewport state with positive widget width and height and
zoom factor at least 1, mapping an object-space point to screen space with
XYtoQPoint and solving the mapping equations back recovers the original
point exactly (the rational-arithmetic embedding is exact, hence within
floating-point tolerance). -/
theorem c7_coordinate_roundtrip (v : Viewport) (x y : ℚ)
    (hw : 0 < v.width) (hh : 0 < v.height) (hz : 1 ≤ v.zoom) :
    QPointToXY v (XYtoQPoint v x y) = (x, y) := by
  have hzpos : 0 < v.zoom := lt_of_lt_of_le one_pos hz
  have hf1 : fullscreen1 v ≠ 0 := by
    unfold fullscreen1
    split_ifs with h
    · positivity
    · positivity
  have hf3 : fullscreen3 v ≠ 0 := by
    unfold fullscreen3
    split_ifs with h
    · positivity
    · positivity
  have hwne : v.width ≠ 0 := ne_of_gt hw
  have hhne : v.height ≠ 0 := ne_of_gt hh
  have h2 : screenX1 v - screenX0 v = 2 * fullscreen1 v := by
    unfold screenX1 screenX0
    ring
  have h3 : screenY1 v - screenY0 v = 2 * fullscreen3 v := by
    unfold screenY1 screenY0
    ring
  simp only [QPointToXY, XYtoQPoint, h2, h3, Prod.mk.injEq]
  constructor
  · field_simp
    ring
  · field_simp
    ring

/-- Witness for C7 at a concrete viewport (center (1/2, -1/3), zoom 2,
widget 4 x 3) and point (1/3, 7/5): the round trip recovers the point. -/
theorem c7_coordinate_roundtrip_witness :
    QPointToXY ⟨1/2, -1/3, 2, 4, 3⟩ (XYtoQPoint ⟨1/2, -1/3, 2, 4, 3⟩ (1/3) (7/5))
      = (1/3, 7/5) :=
  c7_coordinate_roundtrip ⟨1/2, -1/3, 2, 4, 3⟩ (1/3) (7/5)
    (by norm_num) (by norm_num) (by norm_num)

end MusicPainter
